import Mathlib

/-!
Shallow embedding of the FutureTools.io scraper module (scraper.py).

The scraper drives a browser, locates repeated card fragments in the
rendered document, and extracts one record per card.  The embedding
models a card as the tuple of query results that _parse_tool_card reads
from the DOM fragment, a document as the tuple of selector-cascade
results that the scrape methods read from the parsed page, and the
browser session as an Option-valued driver field threaded through the
three scrape entry points.
-/

/-- Fixed base origin of the scraped site (FutureToolsScraper.BASE_URL). -/
def BASE_URL : String := "https://www.futuretools.io"

/-- The known category vocabulary (FutureToolsScraper.CATEGORIES). -/
def CATEGORIES : List String :=
  ["AI Detection", "Aggregators", "Automation & Agents", "Avatar", "Chat",
   "Copywriting", "Finance", "For Fun", "Gaming", "Generative Art",
   "Generative Code", "Generative Video", "Image Improvement", "Image Scanning",
   "Inspiration", "Marketing", "Motion Capture", "Music", "Podcasting",
   "Productivity", "Prompt Guides", "Research", "Self-Improvement",
   "Social Media", "Speech-To-Text", "Text-To-Speech", "Translation",
   "Video Editing", "Voice Modulation"]

/-- The pricing filter vocabulary shown to callers (FutureToolsScraper.PRICING_FILTERS). -/
def PRICING_FILTERS : List String :=
  ["Free", "Freemium", "GitHub", "Google Colab", "Open Source", "Paid"]

/-- One output record of the scraper (the dict built by _parse_tool_card). -/
structure ToolData where
  name : String
  description : String
  categories : String
  pricing : String
  url : String
  scraped_at : String
deriving DecidableEq

/-- Query results of a collection-list-8 category container inside a card:
the stripped texts of its div children of class text-block-53 and of class
black-text-db-gc, in document order. -/
structure CatContainer where
  textBlock53 : List String
  blackTextDb : List String
deriving DecidableEq

/-- Shallow embedding of one tool card: exactly the DOM query results that
_parse_tool_card reads.  Each Option String field is the stripped text of
the first element matched by the corresponding find call (none when the
element is absent; a present element with no text carries the empty
string, since a BeautifulSoup tag is truthy even when its text is empty).
tagLinks holds the stripped texts of all anchors whose href contains a
tags query marker; allText is the raw text of the whole card
(card.get_text(), before lower()); toolHref is the href of the first
anchor whose href starts with the /tools/ path.  parseRaises models an
unexpected exception raised while parsing this card, caught by the
per-card try/except handler. -/
structure Card where
  titleAnchor : Option String
  h3 : Option String
  h2 : Option String
  descBox : Option String
  catContainer : Option CatContainer
  tagLinks : List String
  allText : String
  toolHref : Option String
  parseRaises : Bool
deriving DecidableEq

/-- Shallow embedding of a fully rendered document: the results of the five
card selectors tried by the scrape methods, in cascade order. -/
structure Document where
  toolWDyn : List Card
  toolCard : List Card
  toolItem : List Card
  collectionItem : List Card
  articles : List Card
deriving DecidableEq

/-- Decides whether pat is a leading segment of hay (character lists). -/
def charsStartWith : List Char → List Char → Bool
  | [], _ => true
  | _ :: _, [] => false
  | p :: ps, h :: hs => p == h && charsStartWith ps hs

/-- Decides whether pat occurs as a contiguous segment of hay (character
lists); models the Python substring test pat in hay. -/
def charsContain : List Char → List Char → Bool
  | [], pat => pat.isEmpty
  | h :: t, pat => charsStartWith pat (h :: t) || charsContain t pat

/-- Substring test on strings, models the Python expression pat in hay. -/
def strContains (hay pat : String) : Bool :=
  charsContain hay.data pat.data

/-- ASCII lower-casing of a string; models str.lower() on the ASCII text
the scraper works with. -/
def strToLower (s : String) : String :=
  String.mk (s.data.map Char.toLower)

/-- Fuel-driven splitter on character lists: splits hay at every
non-overlapping occurrence of sep, left to right, like str.split(sep)
for a non-empty sep.  The fuel is initialised to the length of hay and
never runs out before hay does. -/
def splitSteps (sep : List Char) : Nat → List Char → List Char → List (List Char)
  | _, [], acc => [acc.reverse]
  | 0, rest, acc => [acc.reverse ++ rest]
  | fuel + 1, h :: t, acc =>
    if charsStartWith sep (h :: t) then
      acc.reverse :: splitSteps sep fuel ((h :: t).drop sep.length) []
    else
      splitSteps sep fuel t (h :: acc)

/-- String splitting on a separator; models the Python call s.split(sep)
with a non-empty separator (the scraper always splits on a comma-space). -/
def splitString (s sep : String) : List String :=
  (splitSteps sep.data s.data.length s.data []).map String.mk

/-- The fixed keyword-to-label pricing map of _parse_tool_card, in its
iteration order. -/
def pricingKeywords : List (String × String) :=
  [("paid", "Paid"), ("free trial", "Free Trial"), ("freemium", "Freemium"),
   ("open source", "Open Source"), ("github", "GitHub")]

/-- The pricing labels matched by the keyword loop of _parse_tool_card:
for each keyword in map order, append its label when the keyword occurs
in the lower-cased card text and the label was not appended before. -/
def matchedPricing (text : String) : List String :=
  pricingKeywords.foldl
    (fun acc kl => if strContains text kl.1 && !(acc.contains kl.2) then acc ++ [kl.2] else acc)
    []

/-- The full pricing label list of _parse_tool_card: the keyword matches,
and the Free fallback appended when nothing matched, the substring free
occurs, and the substring free trial does not. -/
def computePricingLabels (text : String) : List String :=
  let pricing := matchedPricing text
  if pricing.isEmpty && strContains text "free" && !(strContains text "free trial") then
    pricing ++ ["Free"]
  else pricing

/-- Deduplicating collector shared by the two category loops of
_parse_tool_card: appends each text that passes the filter p and is not
already collected, preserving first-seen order. -/
def dedupCollect (p : String → Bool) (l : List String) : List String :=
  l.foldl (fun acc t => if p t && !(acc.contains t) then acc ++ [t] else acc) []

/-- The category label list of _parse_tool_card: labels from the category
container (the text-block-53 divs, or the black-text-db-gc divs when the
former list is empty), each kept when non-empty and unseen; when that
yields nothing, the texts of the tag-filter links, each kept when
non-empty, not a placeholder, and unseen. -/
def collectCategories (c : Card) : List String :=
  let fromContainer :=
    match c.catContainer with
    | some cc =>
      dedupCollect (fun t => t != "")
        (if cc.textBlock53.isEmpty then cc.blackTextDb else cc.textBlock53)
    | none => []
  if fromContainer.isEmpty then
    dedupCollect (fun t => t != "" && !((["", "category"] : List String).contains t)) c.tagLinks
  else fromContainer

/-- The name element chosen by _parse_tool_card: the title anchor when
present, otherwise the first h3, otherwise the first h2; the value is the
stripped text of the chosen element. -/
def nameElemText (c : Card) : Option String :=
  match c.titleAnchor with
  | some t => some t
  | none =>
    match c.h3 with
    | some t => some t
    | none => c.h2

/-- The categories field of the record: comma-joined labels, or the
sentinel Uncategorized when no label was collected. -/
def categoriesField (c : Card) : String :=
  let cats := collectCategories c
  if cats.isEmpty then "Uncategorized" else String.intercalate ", " cats

/-- The pricing field of the record: comma-joined labels detected in the
lower-cased card text, or the sentinel Check tool page when none. -/
def pricingField (c : Card) : String :=
  let pr := computePricingLabels (strToLower c.allText)
  if pr.isEmpty then "Check tool page" else String.intercalate ", " pr

/-- The url field of the record: base origin plus the first /tools/ href
when present and non-empty, otherwise the empty string. -/
def urlField (c : Card) : String :=
  match c.toolHref with
  | some h => if h != "" then BASE_URL ++ h else ""
  | none => ""

/-- Embedding of _parse_tool_card: none when an unexpected exception is
raised (caught per card) or when no name element exists; otherwise the
record assembled from the per-field extraction chains, stamped with the
wall-clock timestamp now. -/
def parseToolCard (c : Card) (now : String) : Option ToolData :=
  if c.parseRaises then none
  else
    match nameElemText c with
    | none => none
    | some n =>
      some { name := n, description := c.descBox.getD "",
             categories := categoriesField c, pricing := pricingField c,
             url := urlField c, scraped_at := now }

/-- The card locator cascade of the scrape methods: the first selector
whose result list is non-empty wins (Python or-chaining of find_all
results); the last fallback is returned even when empty. -/
def locateCards (d : Document) : List Card :=
  if !d.toolWDyn.isEmpty then d.toolWDyn
  else if !d.toolCard.isEmpty then d.toolCard
  else if !d.toolItem.isEmpty then d.toolItem
  else if !d.collectionItem.isEmpty then d.collectionItem
  else d.articles

/-- The extraction loop shared by all scrape methods: parse every card,
keep the successfully parsed records in order. -/
def extractRecords (cards : List Card) (now : String) : List ToolData :=
  cards.filterMap (fun c => parseToolCard c now)

/-- The unfiltered extraction of a rendered document: locate, then
extract (the record-building phase of scrape_newly_added and
scrape_all_tools). -/
def extractAllRecords (d : Document) (now : String) : List ToolData :=
  extractRecords (locateCards d) now

/-- The record filter of scrape_by_category: the category check runs only
when the resolved category list is non-empty and differs from the full
CATEGORIES list, and requires some comma-split category label of the
record to be requested; the pricing check runs only when a non-empty
pricing filter list was passed, and requires some comma-split pricing
label of the record to be requested. -/
def keepTool (categories : List String) (pricingFilters : Option (List String))
    (td : ToolData) : Bool :=
  (if !categories.isEmpty && !(categories == CATEGORIES) then
     (splitString td.categories ", ").any (fun cat => categories.contains cat)
   else true)
  &&
  (match pricingFilters with
   | none => true
   | some pf =>
     if !pf.isEmpty then (splitString td.pricing ", ").any (fun price => pf.contains price)
     else true)

/-- The record-building phase of scrape_by_category: locate and extract as
in the unfiltered methods, then keep only the records passing keepTool;
a missing categories argument defaults to the full CATEGORIES list. -/
def scrapeByCategoryRecords (d : Document) (now : String)
    (categoriesArg pricingFiltersArg : Option (List String)) : List ToolData :=
  let categories := match categoriesArg with | none => CATEGORIES | some cs => cs
  (extractAllRecords d now).filter (fun td => keepTool categories pricingFiltersArg td)

/-- Abstract environment of one _scroll_to_load_all run: the page height
observed after scroll attempt t, whether a load-more control is found,
visible and clickable without error when probed after attempt t, and the
page height re-read right after that click. -/
structure ScrollEnv where
  initialHeight : Nat
  height : Nat → Nat
  buttonVisible : Nat → Bool
  postClickHeight : Nat → Nat

/-- One-for-one embedding of the while loop of _scroll_to_load_all.  The
fuel is the remaining scroll budget (max_scrolls minus the scrolls
counter), t counts completed scroll attempts, lastHeight and
noChangeCount are the loop variables.  The result is the total number of
scroll attempts performed.  A branch returning without recursing models
the break statements; the click branch re-reads the height and resets
the unchanged counter before continuing. -/
def scrollGo (env : ScrollEnv) : Nat → Nat → Nat → Nat → Nat
  | 0, t, _, _ => t
  | fuel + 1, t, lastHeight, noChangeCount =>
    let newHeight := env.height t
    if newHeight = lastHeight then
      if noChangeCount + 1 ≥ 3 then
        if env.buttonVisible t then
          scrollGo env fuel (t + 1) (env.postClickHeight t) 0
        else t + 1
      else scrollGo env fuel (t + 1) newHeight (noChangeCount + 1)
    else scrollGo env fuel (t + 1) newHeight 0

/-- Embedding of _scroll_to_load_all: run the scroll loop with a full
budget, starting from the initially observed page height; returns the
number of scroll attempts performed. -/
def scroll_to_load_all (env : ScrollEnv) (maxScrolls : Nat) : Nat :=
  scrollGo env maxScrolls 0 env.initialHeight 0

/-- Failure environment of one scrape call: whether each staged step of
the try block (driver setup, page navigation, scrolling, reading the
page source) raises, and the document obtained when all succeed. -/
structure SessionEnv where
  setupRaises : Bool
  navigateRaises : Bool
  scrollRaises : Bool
  sourceRaises : Bool
  doc : Document

/-- The try/except body shared by the three scrape entry points, up to
obtaining the parsed document: returns whether all stages succeeded and
the driver field as left by the try block.  Setup assigns the driver
only on success; a failure at any later stage leaves the session open
for the finally clause to release. -/
def runScrapeStages (env : SessionEnv) (st0 : Option Unit) : Bool × Option Unit :=
  if env.setupRaises then (false, st0)
  else if env.navigateRaises then (false, some ())
  else if env.scrollRaises then (false, some ())
  else if env.sourceRaises then (false, some ())
  else (true, some ())

/-- Embedding of _close_driver: quit the session when one is held and
clear the driver field; a cleared field stays cleared. -/
def closeDriver : Option Unit → Option Unit
  | some _ => none
  | none => none

/-- Embedding of scrape_newly_added: run the staged try block, collect
the located and parsed records on success and the empty list on a caught
exception, and release the driver in the finally clause.  Returns the
record list and the driver field handed back to the caller. -/
def scrape_newly_added (env : SessionEnv) (st0 : Option Unit) (now : String) :
    List ToolData × Option Unit :=
  let step := runScrapeStages env st0
  let tools := if step.1 then extractAllRecords env.doc now else []
  (tools, closeDriver step.2)

/-- Embedding of scrape_all_tools: identical staged skeleton on the
catalog root document. -/
def scrape_all_tools (env : SessionEnv) (st0 : Option Unit) (now : String) :
    List ToolData × Option Unit :=
  let step := runScrapeStages env st0
  let tools := if step.1 then extractAllRecords env.doc now else []
  (tools, closeDriver step.2)

/-- Embedding of scrape_by_category: staged skeleton, with the keepTool
filter applied to each parsed record inside the loop. -/
def scrape_by_category (env : SessionEnv) (st0 : Option Unit) (now : String)
    (categoriesArg pricingFiltersArg : Option (List String)) :
    List ToolData × Option Unit :=
  let step := runScrapeStages env st0
  let tools :=
    if step.1 then scrapeByCategoryRecords env.doc now categoriesArg pricingFiltersArg else []
  (tools, closeDriver step.2)

/-- Agreement of two records on every field except the extraction
timestamp. -/
def recEq (a b : ToolData) : Prop :=
  a.name = b.name ∧ a.description = b.description ∧ a.categories = b.categories ∧
  a.pricing = b.pricing ∧ a.url = b.url

/-- The fixed pricing label vocabulary of the scraper output. -/
def pricingVocab : List String :=
  ["Paid", "Free Trial", "Freemium", "Open Source", "GitHub", "Free"]

/-- The record-keeping predicate of scrape_by_category as the spec words
it, amended for the two argument shapes the code treats as no filter: a
categories argument that is unset, empty, or exactly the full CATEGORIES
list applies no category filtering, and a pricing argument that is unset
or empty applies no pricing filtering; otherwise some comma-split label
of the record must be in the requested set. -/
def specKeep (categoriesArg pricingFiltersArg : Option (List String)) (td : ToolData) : Prop :=
  (match categoriesArg with
   | none => True
   | some cs => cs = [] ∨ cs = CATEGORIES ∨ ∃ cat ∈ splitString td.categories ", ", cat ∈ cs)
  ∧
  (match pricingFiltersArg with
   | none => True
   | some pf => pf = [] ∨ ∃ price ∈ splitString td.pricing ", ", price ∈ pf)

/-- Membership reading of the Bool list membership test used by the
dedup loops and filters. -/
lemma contains_mem_iff (l : List String) (a : String) : l.contains a = true ↔ a ∈ l := by
  simp [List.contains_eq_any_beq, List.any_eq_true, eq_comm]

/-- The accumulator of the intercalate worker only ever grows. -/
lemma intercalate_go_length (sep : String) :
    ∀ (l : List String) (acc : String), acc.length ≤ (String.intercalate.go acc sep l).length := by
  intro l
  induction l with
  | nil => intro acc; simp [String.intercalate.go]
  | cons a as ih =>
    intro acc
    calc acc.length ≤ (acc ++ sep ++ a).length := by
          simp [String.length_append]; omega
      _ ≤ (String.intercalate.go (acc ++ sep ++ a) sep as).length := ih _
      _ = (String.intercalate.go acc sep (a :: as)).length := rfl

/-- A non-empty string has positive length. -/
lemma length_pos_of_ne_empty {a : String} (h : a ≠ "") : 0 < a.length := by
  cases a with
  | mk data =>
    cases data with
    | nil => exact absurd rfl h
    | cons c cs => simp [String.length]

/-- Joining a list whose head is a non-empty string never yields the
empty string. -/
lemma intercalate_ne_empty {a : String} (as : List String) (sep : String) (h : a ≠ "") :
    String.intercalate sep (a :: as) ≠ "" := by
  intro hc
  have h1 : a.length ≤ (String.intercalate sep (a :: as)).length :=
    intercalate_go_length sep as a
  have h2 : 0 < a.length := length_pos_of_ne_empty h
  rw [hc] at h1
  have h0 : ("" : String).length = 0 := rfl
  omega

/-- The keyword loop never meets a duplicate label (the five labels are
pairwise distinct), so its result is the map-ordered filter of the
keyword map by keyword occurrence. -/
lemma matchedPricing_eq (t : String) :
    matchedPricing t = (pricingKeywords.filter (fun kl => strContains t kl.1)).map Prod.snd := by
  unfold matchedPricing pricingKeywords
  cases h1 : strContains t "paid" <;> cases h2 : strContains t "free trial" <;>
    cases h3 : strContains t "freemium" <;> cases h4 : strContains t "open source" <;>
      cases h5 : strContains t "github" <;>
        simp +decide [h1, h2, h3, h4, h5]

/-- The keyword loop yields nothing exactly when no keyword of the map
occurs in the text. -/
lemma matchedPricing_nil_iff (t : String) :
    matchedPricing t = [] ↔ pricingKeywords.all (fun kl => !(strContains t kl.1)) = true := by
  rw [matchedPricing_eq]
  simp [List.map_eq_nil_iff, List.filter_eq_nil_iff, List.all_eq_true]

/-- Inversion of a successful card parse: the record fields are exactly
the per-field extraction results and the supplied timestamp. -/
lemma parse_some {c : Card} {now : String} {td : ToolData}
    (h : parseToolCard c now = some td) :
    c.parseRaises = false ∧ nameElemText c = some td.name ∧
    td.description = c.descBox.getD "" ∧ td.categories = categoriesField c ∧
    td.pricing = pricingField c ∧ td.url = urlField c ∧ td.scraped_at = now := by
  unfold parseToolCard at h
  cases hr : c.parseRaises with
  | true => rw [hr] at h; simp at h
  | false =>
    rw [hr] at h
    simp only [Bool.false_eq_true, if_false] at h
    cases hn : nameElemText c with
    | none => rw [hn] at h; simp at h
    | some n =>
      rw [hn] at h
      simp only [Option.some.injEq] at h
      subst h
      exact ⟨rfl, rfl, rfl, rfl, rfl, rfl, rfl⟩

/-- Every element collected by the dedup loop passes its filter. -/
lemma dedupCollect_prop (p : String → Bool) :
    ∀ (l acc : List String), (∀ y ∈ acc, p y = true) →
      ∀ x ∈ l.foldl (fun acc t => if p t && !(acc.contains t) then acc ++ [t] else acc) acc,
        p x = true := by
  intro l
  induction l with
  | nil => intro acc hacc x hx; rw [List.foldl_nil] at hx; exact hacc x hx
  | cons a as ih =>
    intro acc hacc x hx
    rw [List.foldl_cons] at hx
    by_cases hc : (p a && !(acc.contains a)) = true
    · rw [if_pos hc] at hx
      refine ih _ ?_ x hx
      intro y hy
      rcases List.mem_append.1 hy with hy | hy
      · exact hacc y hy
      · rw [List.mem_singleton] at hy
        subst hy
        have hc2 := hc
        rw [Bool.and_eq_true] at hc2
        exact hc2.1
    · rw [if_neg hc] at hx
      exact ih _ hacc x hx

/-- Elements of a dedupCollect run pass the filter. -/
lemma dedupCollect_mem_prop (p : String → Bool) (l : List String) :
    ∀ x ∈ dedupCollect p l, p x = true :=
  fun x hx => dedupCollect_prop p l [] (by simp) x hx

/-- Every collected category label is a non-empty string. -/
lemma collectCategories_ne_empty (c : Card) : ∀ x ∈ collectCategories c, x ≠ "" := by
  have key : ∀ (p : String → Bool) (l : List String),
      (∀ t, p t = true → t ≠ "") → ∀ y ∈ dedupCollect p l, y ≠ "" :=
    fun p l hp y hy => hp y (dedupCollect_mem_prop p l y hy)
  have htag : ∀ t : String,
      (t != "" && !((["", "category"] : List String).contains t)) = true → t ≠ "" := by
    intro t ht
    rw [Bool.and_eq_true] at ht
    exact bne_iff_ne.1 ht.1
  unfold collectCategories
  rcases c.catContainer with _ | cc
  · dsimp only
    intro x hx
    exact key _ _ htag x hx
  · dsimp only
    split <;> split
    all_goals intro x hx
    all_goals
      first
      | exact key _ _ htag x hx
      | exact key _ _ (fun t ht => bne_iff_ne.1 ht) x hx

/-- The keyword-matched labels form a sublist of the map-ordered label
list. -/
lemma matched_sublist (t : String) :
    (matchedPricing t).Sublist (pricingKeywords.map Prod.snd) := by
  rw [matchedPricing_eq]
  exact List.Sublist.map Prod.snd (List.filter_sublist _)

/-- The full pricing label list is a sublist of the map-ordered labels
followed by the fallback label Free. -/
lemma computePricing_sublist (t : String) :
    (computePricingLabels t).Sublist (pricingKeywords.map Prod.snd ++ ["Free"]) := by
  unfold computePricingLabels
  dsimp only
  split
  · rename_i hcond
    rw [Bool.and_eq_true, Bool.and_eq_true] at hcond
    have hnil : matchedPricing t = [] := List.isEmpty_iff.1 hcond.1.1
    rw [hnil]
    exact List.sublist_append_right _ _
  · exact (matched_sublist t).trans (List.sublist_append_left _ _)

/-- Joining a non-empty sublist of the keyword-map labels never yields
the bare label Free. -/
lemma join_sublist_ne_free :
    ∀ l : List String, l.Sublist (pricingKeywords.map Prod.snd) → l ≠ [] →
      String.intercalate ", " l ≠ "Free" := by
  have H : ∀ x ∈ (pricingKeywords.map Prod.snd).sublists,
      x = [] ∨ String.intercalate ", " x ≠ "Free" := by decide
  intro l hs hne
  rcases H l (List.mem_sublists.2 hs) with h | h
  · exact absurd h hne
  · exact h

/-- The scroll loop performs at most as many scroll attempts as its
remaining budget allows. -/
lemma scrollGo_le (env : ScrollEnv) :
    ∀ (fuel t h n : Nat), scrollGo env fuel t h n ≤ t + fuel := by
  intro fuel
  induction fuel with
  | zero => intro t h n; simp [scrollGo]
  | succ f ih =>
    intro t h n
    rw [scrollGo]
    split_ifs
    · have := ih (t + 1) (env.postClickHeight t) 0
      omega
    · omega
    · have := ih (t + 1) (env.height t) (n + 1)
      omega
    · have := ih (t + 1) (env.height t) 0
      omega

/-- Exit step of the scroll loop: unchanged height for the third
consecutive time and no usable load-more control. -/
lemma scrollGo_exit (env : ScrollEnv) (fuel t h n : Nat)
    (hh : env.height t = h) (hb : env.buttonVisible t = false) (hn : 3 ≤ n + 1) :
    scrollGo env (fuel + 1) t h n = t + 1 := by
  rw [scrollGo]
  simp [hh, hb, hn]

/-- Click step of the scroll loop: unchanged height for the third
consecutive time with a visible control: click once, re-read the height,
reset the unchanged counter, continue. -/
lemma scrollGo_click (env : ScrollEnv) (fuel t h n : Nat)
    (hh : env.height t = h) (hb : env.buttonVisible t = true) (hn : 3 ≤ n + 1) :
    scrollGo env (fuel + 1) t h n = scrollGo env fuel (t + 1) (env.postClickHeight t) 0 := by
  rw [scrollGo]
  simp [hh, hb, hn]

/-- Continue step of the scroll loop: unchanged height but fewer than
three consecutive unchanged attempts. -/
lemma scrollGo_cont (env : ScrollEnv) (fuel t h n : Nat)
    (hh : env.height t = h) (hn : n + 1 < 3) :
    scrollGo env (fuel + 1) t h n = scrollGo env fuel (t + 1) h (n + 1) := by
  rw [scrollGo]
  simp [hh]
  intro hge
  omega

/-- Parsing one card at two different timestamps fails together or
succeeds together with records agreeing on all fields but the
timestamp. -/
lemma parse_pair (c : Card) (n1 n2 : String) :
    (parseToolCard c n1 = none ∧ parseToolCard c n2 = none) ∨
    (∃ td1 td2, parseToolCard c n1 = some td1 ∧ parseToolCard c n2 = some td2 ∧
      recEq td1 td2) := by
  unfold parseToolCard
  cases c.parseRaises
  · cases nameElemText c
    · left
      simp
    · right
      exact ⟨_, _, rfl, rfl, rfl, rfl, rfl, rfl, rfl⟩
  · left
    simp

/-- The extraction loop run twice on the same card list produces
pointwise timestamp-independent records. -/
lemma extract_pair :
    ∀ (cards : List Card) (n1 n2 : String),
      List.Forall₂ recEq (extractRecords cards n1) (extractRecords cards n2) := by
  intro cards n1 n2
  induction cards with
  | nil => exact List.Forall₂.nil
  | cons c cs ih =>
    unfold extractRecords at ih ⊢
    rw [List.filterMap_cons, List.filterMap_cons]
    rcases parse_pair c n1 n2 with ⟨h1, h2⟩ | ⟨td1, td2, h1, h2, hr⟩
    · rw [h1, h2]
      exact ih
    · rw [h1, h2]
      exact List.Forall₂.cons hr ih

/-- The pricing half of the scrape_by_category filter agrees with the
spec-worded predicate. -/
lemma keepPricing_iff (pricingFiltersArg : Option (List String)) (td : ToolData) :
    (match pricingFiltersArg with
     | none => true
     | some pf =>
       if !pf.isEmpty then (splitString td.pricing ", ").any (fun price => pf.contains price)
       else true) = true
    ↔ (match pricingFiltersArg with
       | none => True
       | some pf => pf = [] ∨ ∃ price ∈ splitString td.pricing ", ", price ∈ pf) := by
  cases pricingFiltersArg with
  | none => simp
  | some pf =>
    by_cases hpf : pf = []
    · subst hpf
      simp
    · have hne : pf.isEmpty = false := by
        rcases pf with _ | ⟨a, as⟩
        · exact absurd rfl hpf
        · rfl
      simp [hne, hpf, List.any_eq_true, contains_mem_iff]

/-- The category half of the scrape_by_category filter agrees with the
spec-worded predicate once the defaulting of a missing argument to the
full CATEGORIES list is taken into account. -/
lemma keepCategories_iff (categoriesArg : Option (List String)) (td : ToolData) :
    (if !(match categoriesArg with | none => CATEGORIES | some cs => cs).isEmpty &&
        !((match categoriesArg with | none => CATEGORIES | some cs => cs) == CATEGORIES) then
       (splitString td.categories ", ").any
         (fun cat => (match categoriesArg with | none => CATEGORIES | some cs => cs).contains cat)
     else true) = true
    ↔ (match categoriesArg with
       | none => True
       | some cs => cs = [] ∨ cs = CATEGORIES ∨ ∃ cat ∈ splitString td.categories ", ", cat ∈ cs) := by
  cases categoriesArg with
  | none => simp
  | some cs =>
    by_cases hcs : cs = []
    · subst hcs
      simp
    · by_cases hceq : cs = CATEGORIES
      · subst hceq
        simp
      · have hne : cs.isEmpty = false := by
          rcases cs with _ | ⟨a, as⟩
          · exact absurd rfl hcs
          · rfl
        have hbeq : (cs == CATEGORIES) = false := by
          rw [beq_eq_false_iff_ne]
          exact hceq
        simp [hne, hbeq, hcs, hceq, List.any_eq_true, contains_mem_iff]

/-- A card whose title anchor exists but carries no text. -/
def emptyNameCard : Card :=
  { titleAnchor := some "", h3 := none, h2 := none, descBox := none,
    catContainer := none, tagLinks := [], allText := "", toolHref := none,
    parseRaises := false }

/-- A card with no name element at all. -/
def noNameCard : Card :=
  { titleAnchor := none, h3 := none, h2 := none, descBox := none,
    catContainer := none, tagLinks := [], allText := "", toolHref := none,
    parseRaises := false }

/-- The record produced for emptyNameCard at a fixed timestamp. -/
def emptyNameRecord : ToolData :=
  { name := "", description := "", categories := "Uncategorized",
    pricing := "Check tool page", url := "", scraped_at := "2024-01-01 00:00:00" }

/-- A card that yields the sentinel category Uncategorized. -/
def uncatCard : Card :=
  { titleAnchor := some "ToolX", h3 := none, h2 := none, descBox := none,
    catContainer := none, tagLinks := [], allText := "", toolHref := none,
    parseRaises := false }

/-- A one-card document built from uncatCard. -/
def uncatDoc : Document :=
  { toolWDyn := [uncatCard], toolCard := [], toolItem := [], collectionItem := [],
    articles := [] }

/-- The record produced for uncatCard at a fixed timestamp. -/
def uncatRecord : ToolData :=
  { name := "ToolX", description := "", categories := "Uncategorized",
    pricing := "Check tool page", url := "", scraped_at := "t1" }

/-- C1: the spec claims every emitted record has a non-empty name, even
when the title anchor exists with empty text.  The code checks only that
a name element exists, so a present-but-empty title anchor produces a
record whose name is the empty string: the claim is false on the code. -/
theorem c1_counterexample :
    parseToolCard emptyNameCard "2024-01-01 00:00:00" = some emptyNameRecord ∧
    emptyNameRecord.name = "" := by
  constructor
  · rfl
  · rfl

/-- C1 (amended): a card with no title anchor and no h3 or h2 heading
yields nothing, and every emitted record takes its name from the text of
the name element that was found — that text, and hence the name, may be
the empty string. -/
theorem c1_name_extraction :
    (∀ (c : Card) (now : String), nameElemText c = none → parseToolCard c now = none) ∧
    (∀ (c : Card) (now : String) (td : ToolData),
      parseToolCard c now = some td → nameElemText c = some td.name) := by
  constructor
  · intro c now h
    unfold parseToolCard
    rw [h]
    simp
  · intro c now td h
    exact (parse_some h).2.1

/-- Witness for C1: the nameless card is dropped, and the record of the
empty-titled card has the anchor text as its name. -/
theorem c1_witness :
    parseToolCard noNameCard "t0" = none ∧ nameElemText emptyNameCard = some "" := by
  constructor
  · exact c1_name_extraction.1 noNameCard "t0" rfl
  · exact c1_name_extraction.2 emptyNameCard "2024-01-01 00:00:00" emptyNameRecord rfl

/-- C2: the spec claims the category filter applies whenever a categories
argument is passed, including the full known category list.  The code
skips category filtering when the argument equals CATEGORIES, so a
record with the sentinel category Uncategorized — which matches no real
category — is still returned: the claim is false on the code. -/
theorem c2_counterexample :
    scrapeByCategoryRecords uncatDoc "t1" (some CATEGORIES) none = [uncatRecord] ∧
    (splitString uncatRecord.categories ", ").any (fun cat => CATEGORIES.contains cat) = false := by
  constructor
  · rfl
  · rfl

/-- C2 (amended): scrape_by_category output is a sublist of the
unfiltered extraction of the same document, and a record is returned
exactly when it is extracted and passes the predicate: no category
condition when the categories argument is unset, empty, or exactly the
full CATEGORIES list, otherwise some comma-split category label must be
requested; and no pricing condition when the pricing argument is unset
or empty, otherwise some comma-split pricing label must be requested. -/
theorem c2_filter_characterization :
    ∀ (d : Document) (now : String) (categoriesArg pricingFiltersArg : Option (List String)),
      (scrapeByCategoryRecords d now categoriesArg pricingFiltersArg).Sublist
        (extractAllRecords d now) ∧
      ∀ td : ToolData,
        td ∈ scrapeByCategoryRecords d now categoriesArg pricingFiltersArg ↔
          td ∈ extractAllRecords d now ∧ specKeep categoriesArg pricingFiltersArg td := by
  intro d now categoriesArg pricingFiltersArg
  constructor
  · exact List.filter_sublist _
  · intro td
    unfold scrapeByCategoryRecords
    rw [List.mem_filter]
    unfold keepTool specKeep
    rw [Bool.and_eq_true]
    constructor
    · rintro ⟨hmem, h1, h2⟩
      exact ⟨hmem, (keepCategories_iff categoriesArg td).1 h1, (keepPricing_iff pricingFiltersArg td).1 h2⟩
    · rintro ⟨hmem, h1, h2⟩
      exact ⟨hmem, (keepCategories_iff categoriesArg td).2 h1, (keepPricing_iff pricingFiltersArg td).2 h2⟩

/-- The scenario card of the spec whose text mentions freemium and a free
trial and no other pricing keyword. -/
def c3Card : Card :=
  { titleAnchor := some "Tool3", h3 := none, h2 := none, descBox := none,
    catContainer := none, tagLinks := [],
    allText := "Freemium, free trial pricing available", toolHref := none,
    parseRaises := false }

/-- The record produced for c3Card at a fixed timestamp. -/
def c3Record : ToolData :=
  { name := "Tool3", description := "", categories := "Uncategorized",
    pricing := "Free Trial, Freemium", url := "", scraped_at := "t2" }

/-- C3: the spec claims the pricing string is Freemium, Free Trial in
that order; the keyword map is iterated in the order paid, free trial,
freemium, open source, github, so the code emits Free Trial, Freemium:
the claimed order is false on the code. -/
theorem c3_counterexample :
    parseToolCard c3Card "t2" = some c3Record ∧
    c3Record.pricing ≠ "Freemium, Free Trial" := by
  constructor
  · decide
  · decide

/-- C3 (amended): a card whose lower-cased text contains both freemium
and free trial and no other pricing keyword gets the pricing string Free
Trial, Freemium — both labels present, in keyword-map iteration order,
and Free not appended. -/
theorem c3_pricing_scenario :
    ∀ (c : Card) (now : String) (td : ToolData),
      parseToolCard c now = some td →
      strContains (strToLower c.allText) "freemium" = true →
      strContains (strToLower c.allText) "free trial" = true →
      strContains (strToLower c.allText) "paid" = false →
      strContains (strToLower c.allText) "open source" = false →
      strContains (strToLower c.allText) "github" = false →
      td.pricing = "Free Trial, Freemium" := by
  intro c now td h hfm hft hpaid hos hgh
  have hp := (parse_some h).2.2.2.2.1
  rw [hp]
  unfold pricingField
  have hm : matchedPricing (strToLower c.allText) = ["Free Trial", "Freemium"] := by
    rw [matchedPricing_eq]
    unfold pricingKeywords
    simp [List.filter, hfm, hft, hpaid, hos, hgh]
  unfold computePricingLabels
  rw [hm]
  rfl

/-- Witness for C3: the scenario card receives the map-ordered pricing
string. -/
theorem c3_witness : c3Record.pricing = "Free Trial, Freemium" :=
  c3_pricing_scenario c3Card "t2" c3Record (by decide) (by decide) (by decide)
    (by decide) (by decide) (by decide)

/-- The scenario card of the spec whose text is completely free to use. -/
def freeCard : Card :=
  { titleAnchor := some "Tool4", h3 := none, h2 := none, descBox := none,
    catContainer := none, tagLinks := [], allText := "completely free to use",
    toolHref := none, parseRaises := false }

/-- The record produced for freeCard at a fixed timestamp. -/
def freeRecord : ToolData :=
  { name := "Tool4", description := "", categories := "Uncategorized",
    pricing := "Free", url := "", scraped_at := "t4" }

/-- C4: the Free label is the whole pricing exactly when no keyword of
the fixed map occurs in the lower-cased card text, the substring free
occurs, and the substring free trial does not. -/
theorem c4_free_label :
    ∀ (c : Card) (now : String) (td : ToolData),
      parseToolCard c now = some td →
      (td.pricing = "Free" ↔
        (pricingKeywords.all (fun kl => !(strContains (strToLower c.allText) kl.1)) = true ∧
         strContains (strToLower c.allText) "free" = true ∧
         strContains (strToLower c.allText) "free trial" = false)) := by
  intro c now td h
  have hp := (parse_some h).2.2.2.2.1
  rw [hp]
  unfold pricingField computePricingLabels
  rcases hm : matchedPricing (strToLower c.allText) with _ | ⟨a, as⟩
  · have hall : pricingKeywords.all (fun kl => !(strContains (strToLower c.allText) kl.1)) = true :=
      (matchedPricing_nil_iff _).1 hm
    by_cases hfree : strContains (strToLower c.allText) "free" = true
    · by_cases hft : strContains (strToLower c.allText) "free trial" = true
      · simp [hfree, hft, hall]
      · rw [Bool.not_eq_true] at hft
        simp [hfree, hft, hall]
        rfl
    · rw [Bool.not_eq_true] at hfree
      simp [hfree, hall]
  · have hne : a :: as ≠ ([] : List String) := by simp
    have hsub : (a :: as).Sublist (pricingKeywords.map Prod.snd) := hm ▸ matched_sublist _
    have hj : String.intercalate ", " (a :: as) ≠ "Free" := join_sublist_ne_free _ hsub hne
    simp only [List.isEmpty_cons, Bool.false_and, Bool.false_eq_true, if_false]
    refine iff_of_false ?_ ?_
    · simpa using hj
    · rintro ⟨hall, -, -⟩
      have : matchedPricing (strToLower c.allText) = [] := (matchedPricing_nil_iff _).2 hall
      rw [hm] at this
      exact absurd this (by simp)

/-- Witness for C4: the completely-free scenario card gets the pricing
string Free. -/
theorem c4_witness : freeRecord.pricing = "Free" :=
  (c4_free_label freeCard "t4" freeRecord (by decide)).2 ⟨by decide, by decide, by decide⟩

/-- A card with duplicate category labels, a description, a pricing
keyword and a tool link. -/
def c5Card : Card :=
  { titleAnchor := some "Tool5", h3 := none, h2 := none, descBox := some "A tool",
    catContainer := some { textBlock53 := ["Chat", "Productivity", "Chat"], blackTextDb := [] },
    tagLinks := [], allText := "A freemium tool", toolHref := some "/tools/tool5",
    parseRaises := false }

/-- The record produced for c5Card at a fixed timestamp. -/
def c5Record : ToolData :=
  { name := "Tool5", description := "A tool", categories := "Chat, Productivity",
    pricing := "Freemium", url := "https://www.futuretools.io/tools/tool5",
    scraped_at := "t5" }

/-- C5: in every emitted record the categories field is a non-empty join
of non-empty labels or the sentinel Uncategorized, and the pricing field
is a non-empty join of labels from the fixed vocabulary or the sentinel
Check tool page; neither field is ever the empty string. -/
theorem c5_field_invariants :
    ∀ (c : Card) (now : String) (td : ToolData),
      parseToolCard c now = some td →
      (td.categories ≠ "" ∧
        (td.categories = "Uncategorized" ∨
          ∃ ls : List String, ls ≠ [] ∧ (∀ l ∈ ls, l ≠ "") ∧
            td.categories = String.intercalate ", " ls)) ∧
      (td.pricing ≠ "" ∧
        (td.pricing = "Check tool page" ∨
          ∃ ls : List String, ls ≠ [] ∧ (∀ l ∈ ls, l ∈ pricingVocab) ∧
            td.pricing = String.intercalate ", " ls)) := by
  intro c now td h
  have hcat := (parse_some h).2.2.2.1
  have hpr := (parse_some h).2.2.2.2.1
  constructor
  · rw [hcat]
    unfold categoriesField
    rcases hcs : collectCategories c with _ | ⟨a, as⟩
    · simp
    · simp only [List.isEmpty_cons, Bool.false_eq_true, if_false]
      have hmem : ∀ l ∈ a :: as, l ≠ "" := fun l hl =>
        collectCategories_ne_empty c l (hcs ▸ hl)
      have hane : a ≠ "" := hmem a (by simp)
      exact ⟨intercalate_ne_empty as ", " hane, Or.inr ⟨a :: as, by simp, hmem, rfl⟩⟩
  · rw [hpr]
    unfold pricingField
    rcases hps : computePricingLabels (strToLower c.allText) with _ | ⟨a, as⟩
    · simp
    · simp only [List.isEmpty_cons, Bool.false_eq_true, if_false]
      have hsub : (a :: as).Sublist (pricingKeywords.map Prod.snd ++ ["Free"]) :=
        hps ▸ computePricing_sublist _
      have hvocab : ∀ x ∈ pricingKeywords.map Prod.snd ++ ["Free"], x ∈ pricingVocab := by decide
      have hmem : ∀ l ∈ a :: as, l ∈ pricingVocab := fun l hl => hvocab l (hsub.subset hl)
      have hvne : ∀ x ∈ pricingVocab, x ≠ "" := by decide
      have hane : a ≠ "" := hvne a (hmem a (by simp))
      exact ⟨intercalate_ne_empty as ", " hane, Or.inr ⟨a :: as, by simp, hmem, rfl⟩⟩

/-- Witness for C5: the invariants hold of the record extracted from
c5Card. -/
theorem c5_witness :
    (c5Record.categories ≠ "" ∧
      (c5Record.categories = "Uncategorized" ∨
        ∃ ls : List String, ls ≠ [] ∧ (∀ l ∈ ls, l ≠ "") ∧
          c5Record.categories = String.intercalate ", " ls)) ∧
    (c5Record.pricing ≠ "" ∧
      (c5Record.pricing = "Check tool page" ∨
        ∃ ls : List String, ls ≠ [] ∧ (∀ l ∈ ls, l ∈ pricingVocab) ∧
          c5Record.pricing = String.intercalate ", " ls)) :=
  c5_field_invariants c5Card "t5" c5Record (by decide)

/-- C6: the locate-and-extract phase is deterministic up to the
timestamp: two runs on the same rendered document yield record sequences
of equal length that agree field-for-field on name, description,
categories, pricing and url. -/
theorem c6_deterministic_extraction :
    ∀ (d : Document) (n1 n2 : String),
      (extractAllRecords d n1).length = (extractAllRecords d n2).length ∧
      List.Forall₂ recEq (extractAllRecords d n1) (extractAllRecords d n2) := by
  intro d n1 n2
  have h := extract_pair (locateCards d) n1 n2
  exact ⟨h.length_eq, h⟩

/-- A scroll environment whose page height never changes and which shows
no load-more control. -/
def constScrollEnv : ScrollEnv :=
  { initialHeight := 7, height := fun _ => 7, buttonVisible := fun _ => false,
    postClickHeight := fun _ => 7 }

/-- A scroll environment whose page height never changes and which shows
a clickable load-more control. -/
def clickScrollEnv : ScrollEnv :=
  { initialHeight := 5, height := fun _ => 5, buttonVisible := fun _ => true,
    postClickHeight := fun _ => 9 }

/-- C7: the scroll loop always terminates within its budget of scroll
attempts; with a stable height and no visible load-more control it exits
after exactly 3 attempts; and at the third consecutive unchanged height
a visible control is clicked once, the height re-read, and the unchanged
counter reset before scrolling continues, while without such a control
the loop stops there. -/
theorem c7_scroll_termination :
    (∀ (env : ScrollEnv) (maxScrolls : Nat),
      scroll_to_load_all env maxScrolls ≤ maxScrolls) ∧
    (∀ (env : ScrollEnv) (maxScrolls : Nat), 3 ≤ maxScrolls →
      (∀ t, env.height t = env.initialHeight) →
      (∀ t, env.buttonVisible t = false) →
      scroll_to_load_all env maxScrolls = 3) ∧
    (∀ (env : ScrollEnv) (fuel t h n : Nat),
      env.height t = h → env.buttonVisible t = true → 3 ≤ n + 1 →
      scrollGo env (fuel + 1) t h n = scrollGo env fuel (t + 1) (env.postClickHeight t) 0) ∧
    (∀ (env : ScrollEnv) (fuel t h n : Nat),
      env.height t = h → env.buttonVisible t = false → 3 ≤ n + 1 →
      scrollGo env (fuel + 1) t h n = t + 1) := by
  refine ⟨?_, ?_, ?_, ?_⟩
  · intro env maxScrolls
    have := scrollGo_le env maxScrolls 0 env.initialHeight 0
    unfold scroll_to_load_all
    omega
  · intro env maxScrolls hm hh hb
    obtain ⟨k, rfl⟩ : ∃ k, maxScrolls = k + 3 := ⟨maxScrolls - 3, by omega⟩
    show scrollGo env (k + 3) 0 env.initialHeight 0 = 3
    calc scrollGo env (k + 2 + 1) 0 env.initialHeight 0
        = scrollGo env (k + 2) 1 env.initialHeight 1 :=
          scrollGo_cont env (k + 2) 0 env.initialHeight 0 (hh 0) (by omega)
      _ = scrollGo env (k + 1) 2 env.initialHeight 2 :=
          scrollGo_cont env (k + 1) 1 env.initialHeight 1 (hh 1) (by omega)
      _ = 3 := scrollGo_exit env k 2 env.initialHeight 2 (hh 2) (hb 2) (by omega)
  · intro env fuel t h n hh hb hn
    exact scrollGo_click env fuel t h n hh hb hn
  · intro env fuel t h n hh hb hn
    exact scrollGo_exit env fuel t h n hh hb hn

/-- Witness for C7: the stable no-control environment stays within a
budget of 10 and stops after exactly 3 attempts, and a visible control
environment takes the click-and-reset step. -/
theorem c7_witness :
    scroll_to_load_all constScrollEnv 10 ≤ 10 ∧
    scroll_to_load_all constScrollEnv 10 = 3 ∧
    scrollGo clickScrollEnv 1 0 5 2 = scrollGo clickScrollEnv 0 1 9 0 ∧
    scrollGo constScrollEnv 1 0 7 2 = 1 := by
  refine ⟨?_, ?_, ?_, ?_⟩
  · exact c7_scroll_termination.1 constScrollEnv 10
  · exact c7_scroll_termination.2.1 constScrollEnv 10 (by omega) (fun t => rfl) (fun t => rfl)
  · exact c7_scroll_termination.2.2.1 clickScrollEnv 0 0 5 2 rfl rfl (by omega)
  · exact c7_scroll_termination.2.2.2 constScrollEnv 0 0 7 2 rfl rfl (by omega)

/-- C8: on every exit path of every scrape entry point the driver field
handed back to the caller is cleared, whatever stage failed and whatever
session state the call started from. -/
theorem c8_driver_released :
    ∀ (env : SessionEnv) (st0 : Option Unit) (now : String)
      (categoriesArg pricingFiltersArg : Option (List String)),
      (scrape_newly_added env st0 now).2 = none ∧
      (scrape_by_category env st0 now categoriesArg pricingFiltersArg).2 = none ∧
      (scrape_all_tools env st0 now).2 = none := by
  intro env st0 now categoriesArg pricingFiltersArg
  have hclose : ∀ st : Option Unit, closeDriver st = none := by
    intro st
    rcases st with _ | u <;> rfl
  refine ⟨?_, ?_, ?_⟩ <;>
    simp [scrape_newly_added, scrape_by_category, scrape_all_tools, hclose]

/-- A card whose parse raises an exception caught per card. -/
def raisingCard : Card :=
  { titleAnchor := some "Broken", h3 := none, h2 := none, descBox := none,
    catContainer := none, tagLinks := [], allText := "", toolHref := none,
    parseRaises := true }

/-- A session environment whose driver setup raises. -/
def setupFailEnv : SessionEnv :=
  { setupRaises := true, navigateRaises := false, scrollRaises := false,
    sourceRaises := false, doc := uncatDoc }

/-- C9: an exception while parsing one card skips exactly that card and
the rest of the batch is still processed, and a session failure to start
or navigate is caught at the scrape-method boundary and yields the empty
record sequence from every entry point. -/
theorem c9_failure_containment :
    (∀ (pre post : List Card) (c : Card) (now : String), c.parseRaises = true →
      extractRecords (pre ++ c :: post) now =
        extractRecords pre now ++ extractRecords post now) ∧
    (∀ (env : SessionEnv) (st0 : Option Unit) (now : String),
      env.setupRaises = true ∨ env.navigateRaises = true →
      (scrape_newly_added env st0 now).1 = [] ∧
      (scrape_all_tools env st0 now).1 = [] ∧
      ∀ (categoriesArg pricingFiltersArg : Option (List String)),
        (scrape_by_category env st0 now categoriesArg pricingFiltersArg).1 = []) := by
  constructor
  · intro pre post c now hc
    unfold extractRecords
    rw [List.filterMap_append, List.filterMap_cons]
    have hnone : parseToolCard c now = none := by
      unfold parseToolCard
      rw [hc]
      simp
    rw [hnone]
  · intro env st0 now hfail
    have hstep : (runScrapeStages env st0).1 = false := by
      unfold runScrapeStages
      rcases hfail with hf | hf
      · rw [hf]
        simp
      · rw [hf]
        rcases hs : env.setupRaises <;> simp
    refine ⟨?_, ?_, ?_⟩
    · simp [scrape_newly_added, hstep]
    · simp [scrape_all_tools, hstep]
    · intro categoriesArg pricingFiltersArg
      simp [scrape_by_category, hstep]

/-- Witness for C9: a batch with a raising card in front still yields the
good record behind it, and a setup failure yields empty results. -/
theorem c9_witness :
    extractRecords [raisingCard, uncatCard] "t1" =
      extractRecords [] "t1" ++ extractRecords [uncatCard] "t1" ∧
    (scrape_newly_added setupFailEnv none "t1").1 = [] := by
  constructor
  · exact c9_failure_containment.1 [] [uncatCard] raisingCard "t1" rfl
  · exact (c9_failure_containment.2 setupFailEnv none "t1" (Or.inl rfl)).1

/-- C10: the non-sentinel pricing labels always appear in keyword-map
iteration order — the keyword loop result is the map-ordered filter of
the keyword map, and the whole pricing label list is a sublist of the
map-ordered labels followed by Free — so the joined order never depends
on where the keywords sit in the card text. -/
theorem c10_pricing_canonical_order :
    ∀ t : String,
      matchedPricing t = (pricingKeywords.filter (fun kl => strContains t kl.1)).map Prod.snd ∧
      (computePricingLabels t).Sublist (pricingKeywords.map Prod.snd ++ ["Free"]) := by
  intro t
  exact ⟨matchedPricing_eq t, computePricing_sublist t⟩
